import Mathlib

/-!
Shallow embedding of the AI-Council debate orchestration core:
backend/app/agents/base_agent.py, backend/app/agents/claude/claude_agent.py,
backend/app/agents/gpt/gpt_agent.py, backend/app/agents/grok/grok_agent.py,
and backend/config/settings.py.

Modelling conventions:
* Python floats are modelled as exact rationals (`Rat`).
* Wall-clock instants are rationals (seconds since an arbitrary epoch);
  the code stores ISO-8601 UTC timestamp strings, whose lexicographic
  order agrees with the instants they encode, so `start_time` is numeric.
* External effects (Redis publishes, websocket sends, HTTP calls, logs)
  are modelled by returning the records the code would publish; the
  sentence-transformer embedding backend is abstracted as a similarity
  function `String → String → Rat` (cosine of the two embeddings).
* Python dicts become association lists in insertion order, matching
  dict iteration order.
* A Python attribute read on an object that was never assigned that
  attribute raises AttributeError; this is modelled with `Except PyError`.
-/

/-- Configuration record read by the agents (`CONFIG` in base_agent.py),
restricted to the keys the embedded code reads.  Field values of
`cfgDefault` are the source defaults. -/
structure Config where
  CONFIDENCE_THRESHOLD : Rat
  CONSENSUS_THRESHOLD : Rat
  MIN_DEBATE_ROUNDS : Nat
  MAX_DEBATE_ROUNDS : Nat
  CACHING_ENABLED : Bool
  CACHE_TTL : Nat
  ENABLE_DEADLOCK_DETECTION : Bool
  DEBATE_TIMEOUT : Rat
  MAX_HISTORY_SIZE : Nat
  deriving DecidableEq

/-- Default configuration from the `os.getenv(..., default)` calls in
base_agent.py lines 19-41. -/
def cfgDefault : Config where
  CONFIDENCE_THRESHOLD := 25/100
  CONSENSUS_THRESHOLD := 15/100
  MIN_DEBATE_ROUNDS := 2
  MAX_DEBATE_ROUNDS := 4
  CACHING_ENABLED := true
  CACHE_TTL := 300
  ENABLE_DEADLOCK_DETECTION := true
  DEBATE_TIMEOUT := 30
  MAX_HISTORY_SIZE := 10

/-- A response as stored by the arbiter per debate round
(claude_agent.py process_response, lines 171-177); the `timestamp`
field is omitted (it is never read again). -/
structure Response where
  agent : String
  content : String
  confidence : Rat
  reasoning : String
  deriving DecidableEq

/-- The dissenting-view record built by final arbitration
(claude_agent.py lines 321-327). -/
structure DissentingView where
  agent : String
  content : String
  confidence : Rat
  deriving DecidableEq

/-- The final arbitration outcome published to the arbitration channel
(claude_agent.py lines 338-348), without the wall-clock timestamp. -/
structure FinalOutcome where
  debate_id : String
  round : Nat
  status : String
  content : String
  confidence : Rat
  winning_agent : String
  contributing_agents : List String
  dissenting_view : Option DissentingView
  deriving DecidableEq

/-- The record published by round arbitration: one constructor per
result record of `_perform_arbitration` (claude_agent.py lines 233-310),
carrying the fields of the published JSON object. -/
inductive ArbDecision where
  | consensus (debate_id : String) (round : Nat) (content : String)
      (confidence : Rat) (contributing_agents : List String)
  | strong_confidence (debate_id : String) (round : Nat) (content : String)
      (confidence : Rat) (contributing_agents : List String)
  | concluded (outcome : Option FinalOutcome)
  | continueRound (debate_id : String) (round : Nat) (next_round : Nat)
  deriving DecidableEq

/-- What the arbiter's per-response handler did after ingesting a
response: nothing yet, forced final arbitration, or round arbitration. -/
inductive ClaudeAction where
  | waitMore
  | finalArb (outcome : Option FinalOutcome)
  | roundArb (decision : ArbDecision)
  deriving DecidableEq

/-- Count of unordered pairs (i, j), i < j, of contents whose similarity
strictly exceeds `threshold`: the nested loops of `_check_consensus`
(claude_agent.py lines 382-399).  The similarity backend (cosine on
sentence embeddings when the model is loaded, else the Jaccard fallback
`_text_similarity`) is abstracted as `sim`. -/
def countSimilarPairs (sim : String → String → Rat) (threshold : Rat) :
    List String → Nat
  | [] => 0
  | c :: rest =>
      rest.countP (fun d => decide (threshold < sim c d)) +
        countSimilarPairs sim threshold rest

/-- `similar_count / required_similar` with
`required_similar = n*(n-1)/2`, the ratio `_check_consensus` compares
with 0.8 (claude_agent.py lines 402-403). -/
def consensusFrac (cfg : Config) (sim : String → String → Rat)
    (rs : List Response) : Rat :=
  (countSimilarPairs sim (1 - cfg.CONSENSUS_THRESHOLD)
      (rs.map (fun r => r.content)) : Rat) /
    (((rs.length * (rs.length - 1) : Nat) : Rat) / 2)

/-- Python `max(responses, key=lambda r: r.get("confidence", 0))`:
the first element of maximal confidence (claude_agent.py line 405). -/
def maxByConfidence : List Response → Option Response
  | [] => none
  | r :: rest =>
      some (rest.foldl
        (fun best x => if best.confidence < x.confidence then x else best) r)

/-- The ordering used by `sorted(responses, key=confidence,
reverse=True)`: `a` may precede `b` when `b`'s confidence is at most
`a`'s. -/
def confGE (a b : Response) : Prop := b.confidence ≤ a.confidence

instance : DecidableRel confGE :=
  fun a b => inferInstanceAs (Decidable (b.confidence ≤ a.confidence))

instance : IsTotal Response confGE :=
  ⟨fun a b => le_total b.confidence a.confidence⟩

instance : IsTrans Response confGE :=
  ⟨fun _ _ _ hab hbc => le_trans hbc hab⟩

/-- Python `sorted(responses, key=lambda r: r.get("confidence", 0),
reverse=True)` (claude_agent.py lines 317 and 416): a stable descending
sort.  Insertion sort with `confGE` places an element before every
later element of equal confidence, which is exactly the stable
descending order Python produces. -/
def sortByConfDesc (rs : List Response) : List Response :=
  List.insertionSort confGE rs

/-- `_check_consensus` (claude_agent.py lines 371-408).  Returns the
chosen response when consensus is declared, `none` otherwise; the code's
`(True, resp)` / `(False, None)` pair is collapsed into this option. -/
def check_consensus (cfg : Config) (sim : String → String → Rat)
    (rs : List Response) : Option Response :=
  if rs.length ≤ 1 then rs.head?
  else if 8/10 < consensusFrac cfg sim rs then maxByConfidence rs
  else none

/-- `_check_strong_confidence` (claude_agent.py lines 410-424): compares
the two highest confidences of the stable descending sort against
`CONFIDENCE_THRESHOLD`. -/
def check_strong_confidence (cfg : Config) (rs : List Response) :
    Option Response :=
  if rs.length ≤ 1 then rs.head?
  else
    match sortByConfDesc rs with
    | highest :: second :: _ =>
        if cfg.CONFIDENCE_THRESHOLD < highest.confidence - second.confidence
        then some highest else none
    | _ => none

/-- `_perform_final_arbitration`'s published outcome (claude_agent.py
lines 312-350): winner is the head of the stable descending sort,
dissenting view the second element when present.  The table mutation of
the same method is `finalize_table` below.  `none` models the IndexError
the code would raise on an empty response list. -/
def perform_final_arbitration (did : String) (rnd : Nat)
    (rs : List Response) : Option FinalOutcome :=
  match sortByConfDesc rs with
  | [] => none
  | winner :: rest =>
      some { debate_id := did, round := rnd, status := "concluded",
             content := winner.content, confidence := winner.confidence,
             winning_agent := winner.agent,
             contributing_agents := rs.map (fun r => r.agent),
             dissenting_view := rest.head?.map (fun s =>
               { agent := s.agent, content := s.content,
                 confidence := s.confidence }) }

/-- `_perform_arbitration` (claude_agent.py lines 233-310): consensus
check, then strong-confidence check gated on `MIN_DEBATE_ROUNDS`, then
the `MAX_DEBATE_ROUNDS` check, else a continue record with
`next_round = round + 1`. -/
def perform_arbitration (cfg : Config) (sim : String → String → Rat)
    (did : String) (rnd : Nat) (rs : List Response) : ArbDecision :=
  match check_consensus cfg sim rs with
  | some cr =>
      .consensus did rnd cr.content cr.confidence (rs.map (fun r => r.agent))
  | none =>
      match check_strong_confidence cfg rs with
      | some hi =>
          if cfg.MIN_DEBATE_ROUNDS ≤ rnd then
            .strong_confidence did rnd hi.content hi.confidence [hi.agent]
          else if cfg.MAX_DEBATE_ROUNDS ≤ rnd then
            .concluded (perform_final_arbitration did rnd rs)
          else .continueRound did rnd (rnd + 1)
      | none =>
          if cfg.MAX_DEBATE_ROUNDS ≤ rnd then
            .concluded (perform_final_arbitration did rnd rs)
          else .continueRound did rnd (rnd + 1)

/-- The condition of the claim's strong-confidence step, stated from the
spec's words: the top confidence exceeds the second by more than the
threshold, with top and second read off the stable descending sort. -/
def strongDiff (cfg : Config) (rs : List Response) : Prop :=
  ∃ t s rest, sortByConfDesc rs = t :: s :: rest ∧
    cfg.CONFIDENCE_THRESHOLD < t.confidence - s.confidence

/-- A tracked debate (claude_agent.py line 165): creation time, status
string, and an insertion-ordered map from round number to the responses
collected for that round. -/
structure Debate where
  start_time : Rat
  status : String
  rounds : List (Nat × List Response)
  deriving DecidableEq

/-- Python `active_debates[debate_id]` lookup. -/
def lookupDebate (table : List (String × Debate)) (did : String) :
    Option Debate :=
  (table.find? (fun p => p.1 == did)).map (fun p => p.2)

/-- Python `debate["rounds"][round_num]` (empty when absent, which the
code guards against by creating the round first). -/
def roundResponses (rounds : List (Nat × List Response)) (rnd : Nat) :
    List Response :=
  ((rounds.find? (fun p => p.1 == rnd)).map (fun p => p.2)).getD []

/-- Create the round list if absent, then append the response
(claude_agent.py lines 167-177). -/
def roundsAdd (rounds : List (Nat × List Response)) (rnd : Nat)
    (r : Response) : List (Nat × List Response) :=
  if rounds.any (fun p => p.1 == rnd) then
    rounds.map (fun p => if p.1 == rnd then (p.1, p.2 ++ [r]) else p)
  else rounds ++ [(rnd, [r])]

/-- Create the debate entry if absent (with `start_time := now` and
status `active`), then append the response to the round
(claude_agent.py lines 164-177). -/
def ingest_response (table : List (String × Debate)) (did : String)
    (rnd : Nat) (r : Response) (now : Rat) : List (String × Debate) :=
  match lookupDebate table did with
  | none => table ++ [(did, { start_time := now, status := "active",
                              rounds := [(rnd, [r])] })]
  | some _ => table.map (fun p =>
      if p.1 == did then
        (p.1, { p.2 with rounds := roundsAdd p.2.rounds rnd r })
      else p)

/-- The accumulator loop of the cleanup in `_perform_final_arbitration`
(claude_agent.py lines 358-365): fold over the table tracking the id and
start time of the oldest completed debate seen so far, keeping the first
entry on ties (the code replaces only on a strictly smaller time). -/
def findOldestAux (acc : Option (String × Rat)) :
    List (String × Debate) → Option (String × Rat)
  | [] => acc
  | (id, d) :: rest =>
      let next :=
        if d.status = "completed" then
          match acc with
          | none => some (id, d.start_time)
          | some (oid, t) =>
              if d.start_time < t then some (id, d.start_time)
              else some (oid, t)
        else acc
      findOldestAux next rest

/-- Oldest completed debate of the table, if any. -/
def findOldestCompleted (table : List (String × Debate)) :
    Option (String × Rat) :=
  findOldestAux none table

/-- The overflow cleanup of `_perform_final_arbitration`
(claude_agent.py lines 355-369): when the table exceeds
`MAX_HISTORY_SIZE`, delete the oldest completed debate.  The code's
`if oldest_debate:` guard is Python truthiness, so an empty-string id is
never deleted. -/
def evict (cfg : Config) (table : List (String × Debate)) :
    List (String × Debate) :=
  if cfg.MAX_HISTORY_SIZE < table.length then
    match findOldestCompleted table with
    | some (oid, _) =>
        if oid = "" then table else table.filter (fun p => p.1 != oid)
    | none => table
  else table

/-- Table mutation of `_perform_final_arbitration` (claude_agent.py
lines 352-369): mark the debate completed, then run the overflow
cleanup. -/
def finalize_table (cfg : Config) (table : List (String × Debate))
    (did : String) : List (String × Debate) :=
  evict cfg (table.map (fun p =>
    if p.1 == did then (p.1, { p.2 with status := "completed" }) else p))

/-- `ClaudeAgent.process_response` (claude_agent.py lines 158-196):
ingest the response, then force final arbitration when the debate has
exceeded `DEBATE_TIMEOUT` and the round is non-empty, else run round
arbitration once at least 3 responses were collected.  Returns the
updated table and the action taken; websocket/Redis emissions are
carried inside the action's records. -/
def claude_process_response (cfg : Config) (sim : String → String → Rat)
    (table : List (String × Debate)) (did : String) (rnd : Nat)
    (r : Response) (now : Rat) : List (String × Debate) × ClaudeAction :=
  let table1 := ingest_response table did rnd r now
  match lookupDebate table1 did with
  | none => (table1, .waitMore)
  | some deb =>
      let responses := roundResponses deb.rounds rnd
      if cfg.DEBATE_TIMEOUT < now - deb.start_time ∧ 0 < responses.length then
        (finalize_table cfg table1 did,
         .finalArb (perform_final_arbitration did rnd responses))
      else if 3 ≤ responses.length then
        let d := perform_arbitration cfg sim did rnd responses
        (match d with
         | .concluded _ => finalize_table cfg table1 did
         | _ => table1,
         .roundArb d)
      else (table1, .waitMore)

/-- `ClaudeAgent.process_moderation` (claude_agent.py lines 198-220) for
the `deadlock` and `loop_detected` signals: the adjusted thresholds are
bound to local variables that are never stored (the underscore-named
lets below), `CONFIG` is only read, and a signal with the corresponding
flag is sent.  Returns the configuration visible to later evaluations
together with the flag of the emitted signal.  The `conclude` branch
(final arbitration on the latest round) does not touch the
configuration either and is modelled by the catch-all arm. -/
def claude_process_moderation (cfg : Config) (state : String) :
    Config × Option String :=
  if state = "deadlock" then
    let _confidence_threshold := cfg.CONFIDENCE_THRESHOLD * (6/10)
    (cfg, some "threshold_adjusted")
  else if state = "loop_detected" then
    let _consensus_threshold := cfg.CONSENSUS_THRESHOLD * 2
    (cfg, some "forcing_decision")
  else (cfg, none)

/-- A Redis cache entry with its absolute expiry instant: `SET key value
EX ttl` at time `now` yields `expireAt = now + ttl`. -/
structure CacheEntry where
  key : String
  value : String
  expireAt : Nat
  deriving DecidableEq

/-- Redis GET with TTL semantics: a key answers while `now` is before
its expiry. -/
def cache_get (store : List CacheEntry) (now : Nat) (k : String) :
    Option String :=
  (store.find? (fun e => e.key == k && decide (now < e.expireAt))).map
    (fun e => e.value)

/-- Redis SET with EX: overwrite the key with a fresh expiry. -/
def cache_set (store : List CacheEntry) (k v : String) (expireAt : Nat) :
    List CacheEntry :=
  { key := k, value := v, expireAt := expireAt } ::
    store.filter (fun e => e.key != k)

/-- Cache key construction shared by both agents
(claude_agent.py lines 90-92, gpt_agent.py lines 42-43):
`cache:<agent>:<hash(json.dumps(messages))>`.  `fp` abstracts Python's
`hash` of the canonical serialization (a fixed function within one
interpreter run) and `serialized` the `json.dumps(messages)` string. -/
def cache_key (agent : String) (fp : String → Nat) (serialized : String) :
    String :=
  "cache:" ++ agent ++ ":" ++ toString (fp serialized)

/-- Result of a cached model call: the returned payload, the cache state
afterwards, and how many model calls were made. -/
structure CallResult where
  result : Option String
  store : List CacheEntry
  modelCalls : Nat
  deriving DecidableEq

/-- `ClaudeAgent.call_claude_api` (claude_agent.py lines 85-156)
restricted to its cache behaviour: on hit return the cached payload with
no model call; on miss perform the call (`apiResponse` abstracts the
HTTP exchange after the retry loop) and, on success, store the payload
with TTL exactly `CACHE_TTL`. -/
def call_claude_api (cfg : Config) (fp : String → Nat)
    (store : List CacheEntry) (now : Nat) (serialized : String)
    (apiResponse : Option String) : CallResult :=
  if cfg.CACHING_ENABLED then
    let key := cache_key "Claude" fp serialized
    match cache_get store now key with
    | some v => { result := some v, store := store, modelCalls := 0 }
    | none =>
        match apiResponse with
        | some res =>
            { result := some res,
              store := cache_set store key res (now + cfg.CACHE_TTL),
              modelCalls := 1 }
        | none => { result := none, store := store, modelCalls := 1 }
  else
    match apiResponse with
    | some res => { result := some res, store := store, modelCalls := 1 }
    | none => { result := none, store := store, modelCalls := 1 }

/-- `GPTAgent.call_gpt_api` (gpt_agent.py lines 37-74): same cache
protocol, but a successful call is stored with the hard-coded TTL 3600
(`ex=3600` at line 72), not `CACHE_TTL`. -/
def call_gpt_api (cfg : Config) (fp : String → Nat)
    (store : List CacheEntry) (now : Nat) (serialized : String)
    (apiResponse : Option String) : CallResult :=
  if cfg.CACHING_ENABLED then
    let key := cache_key "GPT-4o" fp serialized
    match cache_get store now key with
    | some v => { result := some v, store := store, modelCalls := 0 }
    | none =>
        match apiResponse with
        | some res =>
            { result := some res,
              store := cache_set store key res (now + 3600),
              modelCalls := 1 }
        | none => { result := none, store := store, modelCalls := 1 }
  else
    match apiResponse with
    | some res => { result := some res, store := store, modelCalls := 1 }
    | none => { result := none, store := store, modelCalls := 1 }

/-- A Python runtime error surfaced by the moderator code. -/
inductive PyError where
  | attributeError (name : String)
  deriving DecidableEq

/-- `DebateStateMachine` instance state (grok_agent.py lines 11-18).
`__init__` assigns `state_idx`, `current_speaker_idx` and
`turns_since_progress` (plus the constant `states`/`speakers` lists,
kept as the top-level lists below).  No code in the repository ever
assigns `sentence_model` on a `DebateStateMachine` (GrokAgent keeps its
SentenceTransformer on the agent object), so that attribute is an
`Option` that `__init__` leaves at `none`; reading it while `none`
raises AttributeError. -/
structure DSMachine where
  state_idx : Nat
  current_speaker_idx : Nat
  turns_since_progress : Nat
  sentence_model : Option (String → String → Rat)

/-- `self.states` (grok_agent.py line 14). -/
def states : List String := ["propose", "critique", "refine", "conclude"]

/-- `self.speakers` (grok_agent.py line 16). -/
def speakers : List String := ["Grok", "Claude", "GPT"]

/-- The state `DebateStateMachine.__init__` builds. -/
def dsmInit : DSMachine :=
  { state_idx := 0, current_speaker_idx := 0, turns_since_progress := 0,
    sentence_model := none }

/-- `current_state` (grok_agent.py lines 20-21). -/
def current_state (s : DSMachine) : String := states.getD s.state_idx ""

/-- `current_speaker` (grok_agent.py lines 23-24). -/
def current_speaker (s : DSMachine) : String :=
  speakers.getD s.current_speaker_idx ""

/-- `next_turn` (grok_agent.py lines 26-33): advance the phase mod 4,
rotate the speaker mod 3, and reset the stagnation counter exactly when
the new phase index is positive.  The Redis writes and the published
`{state, speaker, action}` signal are observability-only and modelled
away. -/
def next_turn (s : DSMachine) : DSMachine :=
  let newState := (s.state_idx + 1) % states.length
  let newSpeaker := (s.current_speaker_idx + 1) % speakers.length
  { s with
    state_idx := newState,
    current_speaker_idx := newSpeaker,
    turns_since_progress :=
      if 0 < newState then 0 else s.turns_since_progress + 1 }

/-- `detect_loop` (grok_agent.py lines 35-40): with fewer than two
history entries return False; otherwise read `self.sentence_model`
(never assigned, see `DSMachine`) and compare the cosine similarity of
the embeddings of the last two entries with 0.87. -/
def detect_loop (s : DSMachine) (history : List String) :
    Except PyError Bool :=
  if history.length < 2 then .ok false
  else
    match s.sentence_model with
    | none => .error (.attributeError "sentence_model")
    | some model =>
        match history.reverse with
        | a :: b :: _ => .ok (decide ((87 : Rat)/100 < model a b))
        | _ => .ok false

/-- A moderation signal as sent over the websocket.  `_generate_signal`
fills every field; the bare dicts returned by `handle_loop` and
`kill_switch` carry only `flag` and `log` (the other fields `none`).
The wall-clock timestamp is omitted. -/
structure ModSignal where
  state : Option String
  speaker : Option String
  message : Option String
  flag : Option String
  log : String
  deriving DecidableEq

/-- Python `str.capitalize()`: first character upper-cased, the rest
lower-cased. -/
def pyCapitalize (s : String) : String :=
  match s.data with
  | [] => ""
  | c :: cs => String.mk (c.toUpper :: cs.map Char.toLower)

/-- `BaseAgent._generate_signal` (base_agent.py lines 118-127). -/
def generate_signal (agentName state speaker message : String)
    (flag : Option String) : ModSignal :=
  { state := some state, speaker := some speaker, message := some message,
    flag := flag,
    log := agentName ++ ": " ++ pyCapitalize state ++ " phase—" ++ speaker
      ++ " up: " ++ message }

/-- `handle_loop` (grok_agent.py lines 42-44): clamp the phase index at
3 (`len(states) - 1`), leave everything else unchanged, and return the
`loop_detected` signal dict. -/
def handle_loop (s : DSMachine) : DSMachine × ModSignal :=
  ({ s with state_idx := min (s.state_idx + 1) (states.length - 1) },
   { state := none, speaker := none, message := none,
     flag := some "loop_detected",
     log := "Grok: Loop detected—pivoting." })

/-- `detect_deadlock` (grok_agent.py lines 46-47). -/
def detect_deadlock (s : DSMachine) : Bool := 3 ≤ s.turns_since_progress

/-- Python `history[-3:]`: the last `n` entries (all of them when the
list is shorter). -/
def lastN {α : Type} (n : Nat) (l : List α) : List α :=
  l.drop (l.length - n)

/-- `kill_switch` (grok_agent.py lines 49-53): build the summary from
the last 3 history entries, reset the phase index and the stagnation
counter, and return the `kill_switch` signal dict.  The speaker index is
untouched. -/
def kill_switch (s : DSMachine) (history : List String) :
    DSMachine × ModSignal :=
  let summary := "Deadlock detected. Summary: " ++
    String.intercalate " | " (lastN 3 history)
  ({ s with state_idx := 0, turns_since_progress := 0 },
   { state := none, speaker := none, message := none,
     flag := some "kill_switch",
     log := "Grok: Kill switch—reset: " ++ summary })

/-- The moderator's mutable state: its bounded content history and its
`DebateStateMachine`. -/
structure ModState where
  history : List String
  sm : DSMachine

/-- History append with FIFO cap (grok_agent.py lines 89-91): append,
then `pop(0)` once when the length exceeds `MAX_HISTORY_SIZE`. -/
def capAppend (cfg : Config) (history : List String) (content : String) :
    List String :=
  let h := history ++ [content]
  if cfg.MAX_HISTORY_SIZE < h.length then h.tail else h

/-- `GrokAgent.process_response` (grok_agent.py lines 87-117): append to
the capped history, send the current-state signal, then check for a
loop (early return with `handle_loop`), then — when enabled — for a
deadlock (early return with `kill_switch`), else advance the state
machine and send the next-turn signal.  The returned list collects the
signals sent; an AttributeError from `detect_loop` aborts the handler. -/
def grok_process_response (cfg : Config) (st : ModState)
    (agent content : String) :
    Except PyError (ModState × List ModSignal) :=
  let history := capAppend cfg st.history content
  let sig0 := generate_signal "Grok" (current_state st.sm)
    (current_speaker st.sm) content none
  match detect_loop st.sm history with
  | .error e => .error e
  | .ok true =>
      let p := handle_loop st.sm
      .ok ({ history := history, sm := p.1 }, [sig0, p.2])
  | .ok false =>
      if cfg.ENABLE_DEADLOCK_DETECTION && detect_deadlock st.sm then
        let p := kill_switch st.sm history
        .ok ({ history := history, sm := p.1 }, [sig0, p.2])
      else
        let sm1 := next_turn st.sm
        let sig2 := generate_signal "Grok" (current_state sm1)
          (current_speaker sm1) (agent ++ " turn complete - next up.") none
        .ok ({ history := history, sm := sm1 }, [sig0, sig2])

/-! Concrete fixtures used to evaluate the definitions. -/

/-- A refiner response with confidence 0.7. -/
def respA : Response :=
  { agent := "GPT-4o", content := "alpha beta", confidence := 7/10,
    reasoning := "" }

/-- A moderator response with confidence 0.9. -/
def respB : Response :=
  { agent := "Grok", content := "alpha beta gamma", confidence := 9/10,
    reasoning := "" }

/-- An arbiter response with confidence 0.8. -/
def respC : Response :=
  { agent := "Claude", content := "alpha gamma", confidence := 8/10,
    reasoning := "" }

/-- Three collected responses for one round. -/
def rs3 : List Response := [respB, respC, respA]

/-- A similarity backend that reports every pair as 0.9-similar. -/
def simHigh : String → String → Rat := fun _ _ => 9/10

/-- A similarity backend that reports every pair as dissimilar. -/
def simZero : String → String → Rat := fun _ _ => 0

/-- A concrete request fingerprint function. -/
def fp0 : String → Nat := fun _ => 0

/-- A debate created at time 0 with two collected responses. -/
def debT : Debate :=
  { start_time := 0, status := "active", rounds := [(0, [respA, respC])] }

/-- A table tracking only `debT`. -/
def tableT : List (String × Debate) := [("d", debT)]

/-- A table with one active and two completed debates. -/
def tableW : List (String × Debate) :=
  [("a", { start_time := 5, status := "active", rounds := [] }),
   ("b", { start_time := 7, status := "completed", rounds := [] }),
   ("c", { start_time := 2, status := "completed", rounds := [] })]

/-- The default configuration with the history cap lowered to 1
(`MAX_HISTORY_SIZE` is environment-driven). -/
def cfgSmall : Config := { cfgDefault with MAX_HISTORY_SIZE := 1 }

/-- A moderator state with empty history and a stagnated state
machine. -/
def stKill : ModState :=
  { history := [], sm := { dsmInit with turns_since_progress := 3 } }

/-! Claim theorems. -/

/-- C3: for every DSM state, `next_turn` advances the phase index to
`(phase_idx + 1) % 4` and the speaker index to `(speaker_idx + 1) % 3`
in lockstep, and sets `turns_since_progress` to 0 exactly when the new
phase index is positive, incrementing it otherwise; consequently, from
the initial state `(0, 0, 0)`, after `k` calls the phase index is
`k % 4` and the speaker index is `k % 3`. -/
theorem C3_next_turn_lockstep :
    (∀ s : DSMachine,
      (next_turn s).state_idx = (s.state_idx + 1) % 4 ∧
      (next_turn s).current_speaker_idx = (s.current_speaker_idx + 1) % 3 ∧
      (next_turn s).turns_since_progress =
        (if 0 < (s.state_idx + 1) % 4 then 0
         else s.turns_since_progress + 1)) ∧
    (∀ k : Nat,
      (next_turn^[k] dsmInit).state_idx = k % 4 ∧
      (next_turn^[k] dsmInit).current_speaker_idx = k % 3) := by
  constructor
  · exact fun s => ⟨rfl, rfl, rfl⟩
  · intro k
    induction k with
    | zero => exact ⟨rfl, rfl⟩
    | succ n ih =>
        rw [Function.iterate_succ_apply']
        refine ⟨?_, ?_⟩
        · show ((next_turn^[n] dsmInit).state_idx + 1) % 4 = (n + 1) % 4
          rw [ih.1]; omega
        · show ((next_turn^[n] dsmInit).current_speaker_idx + 1) % 3
            = (n + 1) % 3
          rw [ih.2]; omega

/-- C10: `kill_switch` leaves the current speaker unchanged — it resets
only the phase index and the stagnation counter — so after a deadlock
reset the rotation resumes from the speaker that was current when the
deadlock was detected. -/
theorem C10_kill_switch_preserves_speaker :
    ∀ (s : DSMachine) (h : List String),
      (kill_switch s h).1.current_speaker_idx = s.current_speaker_idx ∧
      current_speaker (kill_switch s h).1 = current_speaker s ∧
      (kill_switch s h).1.state_idx = 0 ∧
      (kill_switch s h).1.turns_since_progress = 0 :=
  fun s h => ⟨rfl, rfl, rfl, rfl⟩

/-- C4: the claim's intended reading of `detect_loop` cannot hold on the
code: `DebateStateMachine` never receives a `sentence_model` attribute,
so on the ≥ 2-entry history `["a", "b"]` `detect_loop` raises
AttributeError instead of returning a boolean.  The `handle_loop` part
of the claim does hold: the phase index is clamped at `min (idx+1) 3`,
the speaker is unchanged, and the `loop_detected` flag is emitted. -/
theorem C4_detect_loop_attribute_error :
    detect_loop dsmInit ["a", "b"] =
      Except.error (PyError.attributeError "sentence_model") ∧
    ∀ s : DSMachine,
      (handle_loop s).1.state_idx = min (s.state_idx + 1) 3 ∧
      (handle_loop s).1.current_speaker_idx = s.current_speaker_idx ∧
      (handle_loop s).2.flag = some "loop_detected" :=
  ⟨rfl, fun s => ⟨rfl, rfl, rfl⟩⟩

/-- C9: the moderator pipeline crashes on the second response it ever
appends: with the history at `["a"]`, ingesting content `"b"` makes the
capped history `["a", "b"]`, and the loop check raises AttributeError
(`sentence_model` is never assigned on the state machine), so neither
the deadlock check nor `next_turn` is reached. -/
theorem C9_moderator_crashes_on_second_response :
    grok_process_response cfgDefault { history := ["a"], sm := dsmInit }
        "GPT-4o" "b" =
      Except.error (PyError.attributeError "sentence_model") := rfl

/-- C5: a deadlock is detected exactly when `turns_since_progress ≥ 3`;
`kill_switch` resets the phase index and the stagnation counter to 0,
builds its summary from the last 3 history entries, and returns the
`kill_switch`-flagged signal; and when deadlock detection is enabled, a
deadlock is detected, and the loop check returns false, the moderator's
response handler performs exactly the `kill_switch` transition. -/
theorem C5_deadlock_and_kill_switch :
    (∀ s : DSMachine,
      detect_deadlock s = decide (3 ≤ s.turns_since_progress)) ∧
    (∀ (s : DSMachine) (h : List String),
      (kill_switch s h).1.state_idx = 0 ∧
      (kill_switch s h).1.turns_since_progress = 0 ∧
      (kill_switch s h).2.flag = some "kill_switch" ∧
      (kill_switch s h).2.log =
        "Grok: Kill switch—reset: Deadlock detected. Summary: " ++
          String.intercalate " | " (lastN 3 h)) ∧
    (∀ (cfg : Config) (st : ModState) (agent content : String),
      cfg.ENABLE_DEADLOCK_DETECTION = true →
      detect_deadlock st.sm = true →
      detect_loop st.sm (capAppend cfg st.history content) =
        Except.ok false →
      grok_process_response cfg st agent content =
        Except.ok
          ({ history := capAppend cfg st.history content,
             sm := (kill_switch st.sm
               (capAppend cfg st.history content)).1 },
           [generate_signal "Grok" (current_state st.sm)
              (current_speaker st.sm) content none,
            (kill_switch st.sm (capAppend cfg st.history content)).2])) := by
  refine ⟨fun s => rfl, fun s h => ⟨rfl, rfl, rfl, ?_⟩, ?_⟩
  · show "Grok: Kill switch—reset: " ++
        ("Deadlock detected. Summary: " ++
          String.intercalate " | " (lastN 3 h)) = _
    rw [← String.append_assoc]
    rfl
  · intro cfg st agent content hen hdd hloop
    simp only [grok_process_response, hloop, hen, hdd, Bool.and_self,
      if_true]

/-- C5 witness: a stagnated moderator state with empty history; the
handler performs the kill-switch transition. -/
theorem C5_deadlock_witness :
    cfgDefault.ENABLE_DEADLOCK_DETECTION = true ∧
    detect_deadlock stKill.sm = true ∧
    detect_loop stKill.sm (capAppend cfgDefault stKill.history "x") =
      Except.ok false ∧
    grok_process_response cfgDefault stKill "GPT-4o" "x" =
      Except.ok
        ({ history := capAppend cfgDefault stKill.history "x",
           sm := (kill_switch stKill.sm
             (capAppend cfgDefault stKill.history "x")).1 },
         [generate_signal "Grok" (current_state stKill.sm)
            (current_speaker stKill.sm) "x" none,
          (kill_switch stKill.sm
            (capAppend cfgDefault stKill.history "x")).2]) :=
  ⟨rfl, rfl, rfl,
    C5_deadlock_and_kill_switch.2.2 cfgDefault stKill "GPT-4o" "x"
      rfl rfl rfl⟩

/-- C8: processing a `deadlock` or `loop_detected` moderation signal
emits the `threshold_adjusted` or `forcing_decision` signal
respectively, but leaves the configuration unchanged: the
`CONFIDENCE_THRESHOLD` and `CONSENSUS_THRESHOLD` values observed by any
later evaluation are identical to their values before the signal (the
softened and doubled thresholds are dead local variables). -/
theorem C8_moderation_preserves_config :
    ∀ (cfg : Config) (state : String),
      (claude_process_moderation cfg state).1 = cfg ∧
      (claude_process_moderation cfg state).1.CONFIDENCE_THRESHOLD =
        cfg.CONFIDENCE_THRESHOLD ∧
      (claude_process_moderation cfg state).1.CONSENSUS_THRESHOLD =
        cfg.CONSENSUS_THRESHOLD ∧
      (claude_process_moderation cfg "deadlock").2 =
        some "threshold_adjusted" ∧
      (claude_process_moderation cfg "loop_detected").2 =
        some "forcing_decision" := by
  intro cfg state
  have h1 : (claude_process_moderation cfg state).1 = cfg := by
    unfold claude_process_moderation
    split_ifs <;> rfl
  exact ⟨h1, by rw [h1], by rw [h1], rfl, rfl⟩

/-! Helper lemmas about the embedded arbitration operations. -/

/-- The running maximum kept by `maxByConfidence`'s fold is an element of
the scanned prefix (or the seed) and dominates every scanned
confidence. -/
theorem foldl_maxconf_spec (rest : List Response) :
    ∀ best : Response,
      (rest.foldl
          (fun b x => if b.confidence < x.confidence then x else b) best
            = best ∨
        rest.foldl
          (fun b x => if b.confidence < x.confidence then x else b) best
            ∈ rest) ∧
      best.confidence ≤ (rest.foldl
        (fun b x => if b.confidence < x.confidence then x else b)
          best).confidence ∧
      ∀ x ∈ rest, x.confidence ≤ (rest.foldl
        (fun b x => if b.confidence < x.confidence then x else b)
          best).confidence := by
  induction rest with
  | nil => intro best; simp
  | cons y ys ih =>
      intro best
      simp only [List.foldl_cons]
      obtain ⟨h1, h2, h3⟩ :=
        ih (if best.confidence < y.confidence then y else best)
      refine ⟨?_, ?_, ?_⟩
      · rcases h1 with h | h
        · rw [h]
          by_cases hc : best.confidence < y.confidence
          · rw [if_pos hc]; exact Or.inr (List.mem_cons_self _ _)
          · rw [if_neg hc]; exact Or.inl rfl
        · exact Or.inr (List.mem_cons_of_mem _ h)
      · refine le_trans ?_ h2
        by_cases hc : best.confidence < y.confidence
        · rw [if_pos hc]; exact le_of_lt hc
        · rw [if_neg hc]
      · intro x hx
        rcases List.mem_cons.mp hx with rfl | hx
        · refine le_trans ?_ h2
          by_cases hc : best.confidence < x.confidence
          · rw [if_pos hc]
          · rw [if_neg hc]; exact le_of_not_lt hc
        · exact h3 x hx

/-- `maxByConfidence` of a non-empty list returns a member of maximal
confidence. -/
theorem maxByConfidence_spec (rs : List Response) (hne : rs ≠ []) :
    ∃ w, maxByConfidence rs = some w ∧ w ∈ rs ∧
      ∀ x ∈ rs, x.confidence ≤ w.confidence := by
  match rs, hne with
  | r :: rest, _ =>
      obtain ⟨h1, h2, h3⟩ := foldl_maxconf_spec rest r
      refine ⟨_, rfl, ?_, ?_⟩
      · rcases h1 with h | h
        · rw [h]; exact List.mem_cons_self _ _
        · exact List.mem_cons_of_mem _ h
      · intro x hx
        rcases List.mem_cons.mp hx with rfl | hx
        · exact h2
        · exact h3 x hx

/-- The stable descending sort is a permutation of its input. -/
theorem sortByConfDesc_perm (rs : List Response) :
    (sortByConfDesc rs).Perm rs :=
  List.perm_insertionSort confGE rs

/-- The stable descending sort is pairwise descending in confidence. -/
theorem sortByConfDesc_pairwise (rs : List Response) :
    (sortByConfDesc rs).Pairwise confGE :=
  List.sorted_insertionSort confGE rs

/-- Sorting preserves the length. -/
theorem sortByConfDesc_length (rs : List Response) :
    (sortByConfDesc rs).length = rs.length :=
  (sortByConfDesc_perm rs).length_eq

/-- The head of the stable descending sort is a member of maximal
confidence. -/
theorem sortByConfDesc_head_max (rs : List Response) (t : Response)
    (rest : List Response) (hs : sortByConfDesc rs = t :: rest) :
    t ∈ rs ∧ ∀ x ∈ rs, x.confidence ≤ t.confidence := by
  have hperm := sortByConfDesc_perm rs
  have hpw := sortByConfDesc_pairwise rs
  rw [hs] at hperm hpw
  constructor
  · exact hperm.mem_iff.mp (List.mem_cons_self _ _)
  · intro x hx
    rcases List.mem_cons.mp (hperm.mem_iff.mpr hx) with rfl | hx2
    · exact le_refl _
    · exact (List.pairwise_cons.mp hpw).1 x hx2

/-- The second element of the stable descending sort dominates every
later element's confidence. -/
theorem sortByConfDesc_second_max (rs : List Response) (t s : Response)
    (rest : List Response) (hs : sortByConfDesc rs = t :: s :: rest) :
    ∀ x ∈ rest, x.confidence ≤ s.confidence := by
  have hpw := sortByConfDesc_pairwise rs
  rw [hs] at hpw
  intro x hx
  exact (List.pairwise_cons.mp (List.pairwise_cons.mp hpw).2).1 x hx

/-- A list of length at least 2 sorts to a list with at least two
elements. -/
theorem sortByConfDesc_two (rs : List Response) (h2 : 2 ≤ rs.length) :
    ∃ t s rest, sortByConfDesc rs = t :: s :: rest := by
  have hl := sortByConfDesc_length rs
  cases hm : sortByConfDesc rs with
  | nil => rw [hm] at hl; simp at hl; omega
  | cons a l =>
      cases l with
      | nil => rw [hm] at hl; simp at hl; omega
      | cons b l2 => exact ⟨a, b, l2, rfl⟩

/-- When the similar-pair fraction exceeds 0.8, `_check_consensus`
declares consensus and returns a response of maximal confidence. -/
theorem check_consensus_of_frac (cfg : Config)
    (sim : String → String → Rat) (rs : List Response)
    (h2 : 2 ≤ rs.length) (hfrac : 8/10 < consensusFrac cfg sim rs) :
    ∃ w, check_consensus cfg sim rs = some w ∧ w ∈ rs ∧
      ∀ x ∈ rs, x.confidence ≤ w.confidence := by
  have hne : rs ≠ [] := by
    intro h; rw [h] at h2; simp at h2
  obtain ⟨w, hmax, hmem, hall⟩ := maxByConfidence_spec rs hne
  refine ⟨w, ?_, hmem, hall⟩
  unfold check_consensus
  rw [if_neg (by omega), if_pos hfrac]
  exact hmax

/-- When the similar-pair fraction does not exceed 0.8,
`_check_consensus` declares no consensus. -/
theorem check_consensus_none (cfg : Config) (sim : String → String → Rat)
    (rs : List Response) (h2 : 2 ≤ rs.length)
    (hfrac : ¬ (8/10 < consensusFrac cfg sim rs)) :
    check_consensus cfg sim rs = none := by
  unfold check_consensus
  rw [if_neg (by omega), if_neg hfrac]

/-- `_check_strong_confidence` answers the sorted head when the top two
confidences differ by more than the threshold. -/
theorem check_strong_eq_some (cfg : Config) (rs : List Response)
    (t s : Response) (rest : List Response) (h2 : 2 ≤ rs.length)
    (hs : sortByConfDesc rs = t :: s :: rest)
    (hd : cfg.CONFIDENCE_THRESHOLD < t.confidence - s.confidence) :
    check_strong_confidence cfg rs = some t := by
  unfold check_strong_confidence
  rw [if_neg (by omega), hs]
  simp [hd]

/-- `_check_strong_confidence` answers nothing when the top two
confidences differ by at most the threshold. -/
theorem check_strong_eq_none (cfg : Config) (rs : List Response)
    (t s : Response) (rest : List Response) (h2 : 2 ≤ rs.length)
    (hs : sortByConfDesc rs = t :: s :: rest)
    (hd : ¬ cfg.CONFIDENCE_THRESHOLD < t.confidence - s.confidence) :
    check_strong_confidence cfg rs = none := by
  unfold check_strong_confidence
  rw [if_neg (by omega), hs]
  simp [hd]

/-- C1: with at least 3 collected responses, round arbitration applies
exactly the claimed decision procedure in order: (1) if the fraction of
unordered response pairs whose similarity exceeds
`1 - CONSENSUS_THRESHOLD`, over `n(n-1)/2` pairs, is greater than 0.8,
it publishes a `consensus` outcome carrying the content and confidence
of the highest-confidence response; (2) otherwise, if
`round ≥ MIN_DEBATE_ROUNDS` and the top confidence exceeds the second
by more than `CONFIDENCE_THRESHOLD`, it publishes `strong_confidence`
with the top response; (3) otherwise, if `round ≥ MAX_DEBATE_ROUNDS`,
it performs final arbitration; (4) otherwise it publishes a `continue`
record with `next_round = round + 1`. -/
theorem C1_round_arbitration_procedure (cfg : Config)
    (sim : String → String → Rat) (did : String) (rnd : Nat)
    (rs : List Response) (h3 : 3 ≤ rs.length) :
    (8/10 < consensusFrac cfg sim rs →
      ∃ w, w ∈ rs ∧ (∀ x ∈ rs, x.confidence ≤ w.confidence) ∧
        perform_arbitration cfg sim did rnd rs =
          ArbDecision.consensus did rnd w.content w.confidence
            (rs.map (fun r => r.agent))) ∧
    (¬ (8/10 < consensusFrac cfg sim rs) →
      ∀ t s rest, sortByConfDesc rs = t :: s :: rest →
        cfg.MIN_DEBATE_ROUNDS ≤ rnd →
        cfg.CONFIDENCE_THRESHOLD < t.confidence - s.confidence →
        (∀ x ∈ rs, x.confidence ≤ t.confidence) ∧
        perform_arbitration cfg sim did rnd rs =
          ArbDecision.strong_confidence did rnd t.content t.confidence
            [t.agent]) ∧
    (¬ (8/10 < consensusFrac cfg sim rs) →
      ¬ (cfg.MIN_DEBATE_ROUNDS ≤ rnd ∧ strongDiff cfg rs) →
      cfg.MAX_DEBATE_ROUNDS ≤ rnd →
      perform_arbitration cfg sim did rnd rs =
        ArbDecision.concluded (perform_final_arbitration did rnd rs)) ∧
    (¬ (8/10 < consensusFrac cfg sim rs) →
      ¬ (cfg.MIN_DEBATE_ROUNDS ≤ rnd ∧ strongDiff cfg rs) →
      rnd < cfg.MAX_DEBATE_ROUNDS →
      perform_arbitration cfg sim did rnd rs =
        ArbDecision.continueRound did rnd (rnd + 1)) := by
  have h2 : 2 ≤ rs.length := by omega
  refine ⟨?_, ?_, ?_, ?_⟩
  · intro hfrac
    obtain ⟨w, hcc, hmem, hall⟩ :=
      check_consensus_of_frac cfg sim rs h2 hfrac
    refine ⟨w, hmem, hall, ?_⟩
    unfold perform_arbitration
    rw [hcc]
  · intro hfrac t s rest hs hmin hd
    have hcn := check_consensus_none cfg sim rs h2 hfrac
    have hsc := check_strong_eq_some cfg rs t s rest h2 hs hd
    refine ⟨(sortByConfDesc_head_max rs t (s :: rest) hs).2, ?_⟩
    unfold perform_arbitration
    rw [hcn, hsc]
    simp [hmin]
  · intro hfrac hns hmax
    have hcn := check_consensus_none cfg sim rs h2 hfrac
    obtain ⟨t, s, rest, hs⟩ := sortByConfDesc_two rs h2
    unfold perform_arbitration
    rw [hcn]
    by_cases hd : cfg.CONFIDENCE_THRESHOLD < t.confidence - s.confidence
    · rw [check_strong_eq_some cfg rs t s rest h2 hs hd]
      have hmin : ¬ cfg.MIN_DEBATE_ROUNDS ≤ rnd :=
        fun hm => hns ⟨hm, t, s, rest, hs, hd⟩
      simp [hmin, hmax]
    · rw [check_strong_eq_none cfg rs t s rest h2 hs hd]
      simp [hmax]
  · intro hfrac hns hlt
    have hcn := check_consensus_none cfg sim rs h2 hfrac
    obtain ⟨t, s, rest, hs⟩ := sortByConfDesc_two rs h2
    have hmax : ¬ cfg.MAX_DEBATE_ROUNDS ≤ rnd := by omega
    unfold perform_arbitration
    rw [hcn]
    by_cases hd : cfg.CONFIDENCE_THRESHOLD < t.confidence - s.confidence
    · rw [check_strong_eq_some cfg rs t s rest h2 hs hd]
      have hmin : ¬ cfg.MIN_DEBATE_ROUNDS ≤ rnd :=
        fun hm => hns ⟨hm, t, s, rest, hs, hd⟩
      simp [hmin, hmax]
    · rw [check_strong_eq_none cfg rs t s rest h2 hs hd]
      simp [hmax]

/-- C1 witness: three near-identical responses in round 0 reach
consensus on the highest-confidence response. -/
theorem C1_round_arbitration_witness :
    3 ≤ rs3.length ∧ 8/10 < consensusFrac cfgDefault simHigh rs3 ∧
    ∃ w, w ∈ rs3 ∧ (∀ x ∈ rs3, x.confidence ≤ w.confidence) ∧
      perform_arbitration cfgDefault simHigh "d" 0 rs3 =
        ArbDecision.consensus "d" 0 w.content w.confidence
          (rs3.map (fun r => r.agent)) :=
  ⟨by decide,
    by norm_num [consensusFrac, countSimilarPairs, cfgDefault, simHigh,
      rs3, respA, respB, respC],
    (C1_round_arbitration_procedure cfgDefault simHigh "d" 0 rs3
      (by decide)).1
      (by norm_num [consensusFrac, countSimilarPairs, cfgDefault, simHigh,
        rs3, respA, respB, respC])⟩

/-! Helper lemmas about the arbiter's debate table. -/

/-- Rewriting every entry whose key matches commutes with keyed
lookup on the rounds map. -/
theorem find?_map_roundsAdd (rnd : Nat) (r : Response)
    (rounds : List (Nat × List Response)) :
    (rounds.map (fun p => if p.1 == rnd then (p.1, p.2 ++ [r]) else p)).find?
        (fun p => p.1 == rnd) =
      (rounds.find? (fun p => p.1 == rnd)).map
        (fun p => (p.1, p.2 ++ [r])) := by
  induction rounds with
  | nil => rfl
  | cons hd tl ih =>
      simp only [List.map_cons]
      by_cases hk : (hd.1 == rnd) = true
      · rw [if_pos hk]
        simp [List.find?, hk]
      · rw [if_neg hk]
        rw [List.find?_cons_of_neg, List.find?_cons_of_neg, ih]
        · simpa using hk
        · simpa using hk

/-- Rewriting every table entry whose key matches commutes with keyed
lookup on the debate table. -/
theorem find?_map_debUpdate (did : String) (f : Debate → Debate)
    (table : List (String × Debate)) :
    (table.map (fun p => if p.1 == did then (p.1, f p.2) else p)).find?
        (fun p => p.1 == did) =
      (table.find? (fun p => p.1 == did)).map (fun p => (p.1, f p.2)) := by
  induction table with
  | nil => rfl
  | cons hd tl ih =>
      simp only [List.map_cons]
      by_cases hk : (hd.1 == did) = true
      · rw [if_pos hk]
        simp [List.find?, hk]
      · rw [if_neg hk]
        rw [List.find?_cons_of_neg, List.find?_cons_of_neg, ih]
        · simpa using hk
        · simpa using hk

/-- Appending a response to a round leaves that round's response list
extended by exactly that response. -/
theorem roundResponses_add (rounds : List (Nat × List Response))
    (rnd : Nat) (r : Response) :
    roundResponses (roundsAdd rounds rnd r) rnd =
      roundResponses rounds rnd ++ [r] := by
  unfold roundsAdd
  by_cases hany : rounds.any (fun p => p.1 == rnd)
  · rw [if_pos hany]
    unfold roundResponses
    rw [find?_map_roundsAdd]
    cases hf : rounds.find? (fun p => p.1 == rnd) with
    | none =>
        obtain ⟨x, hx, hpx⟩ := List.any_eq_true.mp hany
        exact absurd hpx (List.find?_eq_none.mp hf x hx)
    | some p => rfl
  · rw [if_neg hany]
    unfold roundResponses
    have hnone : rounds.find? (fun p => p.1 == rnd) = none := by
      apply List.find?_eq_none.mpr
      intro x hx hpx
      exact hany (List.any_eq_true.mpr ⟨x, hx, hpx⟩)
    rw [List.find?_append, hnone]
    simp

/-- Ingesting a response for a tracked debate appends it to the round
and changes nothing else about the debate. -/
theorem lookupDebate_ingest_present (table : List (String × Debate))
    (did : String) (deb : Debate) (rnd : Nat) (r : Response) (now : Rat)
    (h : lookupDebate table did = some deb) :
    lookupDebate (ingest_response table did rnd r now) did =
      some { deb with rounds := roundsAdd deb.rounds rnd r } := by
  have hbranch : ingest_response table did rnd r now =
      table.map (fun p => if p.1 == did then
        (p.1, { p.2 with rounds := roundsAdd p.2.rounds rnd r }) else p) := by
    unfold ingest_response
    rw [h]
  rw [hbranch]
  unfold lookupDebate at h ⊢
  rw [find?_map_debUpdate did
    (fun d => { d with rounds := roundsAdd d.rounds rnd r }) table]
  cases hf : table.find? (fun p => p.1 == did) with
  | none => rw [hf] at h; simp at h
  | some p =>
      rw [hf] at h
      simp at h
      simp [h]

/-- C2: ingesting any response into a debate whose elapsed time exceeds
`DEBATE_TIMEOUT` runs final arbitration immediately, before and instead
of the three-response round-arbitration check; and final arbitration on
a non-empty response list always produces a `concluded` outcome whose
content, confidence and winning agent are those of a maximum-confidence
response, with the dissenting view taken from the second entry of the
descending sort when more than one response exists and absent
otherwise. -/
theorem C2_timeout_and_final_arbitration :
    (∀ (cfg : Config) (sim : String → String → Rat)
       (table : List (String × Debate)) (did : String) (rnd : Nat)
       (r : Response) (now : Rat) (deb : Debate),
      lookupDebate table did = some deb →
      cfg.DEBATE_TIMEOUT < now - deb.start_time →
      roundResponses (roundsAdd deb.rounds rnd r) rnd ≠ [] ∧
      claude_process_response cfg sim table did rnd r now =
        (finalize_table cfg (ingest_response table did rnd r now) did,
         ClaudeAction.finalArb (perform_final_arbitration did rnd
           (roundResponses (roundsAdd deb.rounds rnd r) rnd)))) ∧
    (∀ (did : String) (rnd : Nat) (rs : List Response), rs ≠ [] →
      ∃ w rest out,
        sortByConfDesc rs = w :: rest ∧
        perform_final_arbitration did rnd rs = some out ∧
        out.status = "concluded" ∧ out.content = w.content ∧
        out.confidence = w.confidence ∧ out.winning_agent = w.agent ∧
        out.contributing_agents = rs.map (fun x => x.agent) ∧
        w ∈ rs ∧ (∀ x ∈ rs, x.confidence ≤ w.confidence) ∧
        (∀ s rest2, rest = s :: rest2 →
          out.dissenting_view =
            some { agent := s.agent, content := s.content,
                   confidence := s.confidence } ∧
          ∀ x ∈ rest2, x.confidence ≤ s.confidence) ∧
        (rest = [] → out.dissenting_view = none)) := by
  constructor
  · intro cfg sim table did rnd r now deb h hto
    have hne : roundResponses (roundsAdd deb.rounds rnd r) rnd ≠ [] := by
      rw [roundResponses_add]; simp
    refine ⟨hne, ?_⟩
    have hl := lookupDebate_ingest_present table did deb rnd r now h
    simp only [claude_process_response, hl]
    rw [if_pos ⟨hto, by rw [roundResponses_add]; simp⟩]
  · intro did rnd rs hne
    obtain ⟨w, rest, hs⟩ : ∃ w rest, sortByConfDesc rs = w :: rest := by
      have hl := sortByConfDesc_length rs
      cases hm : sortByConfDesc rs with
      | nil =>
          rw [hm] at hl
          simp at hl
          exact absurd (List.length_eq_zero.mp hl.symm) hne
      | cons a l => exact ⟨a, l, rfl⟩
    have hpf : perform_final_arbitration did rnd rs =
        some { debate_id := did, round := rnd, status := "concluded",
               content := w.content, confidence := w.confidence,
               winning_agent := w.agent,
               contributing_agents := rs.map (fun x => x.agent),
               dissenting_view := rest.head?.map (fun s =>
                 { agent := s.agent, content := s.content,
                   confidence := s.confidence }) } := by
      unfold perform_final_arbitration
      rw [hs]
    obtain ⟨hw, hall⟩ := sortByConfDesc_head_max rs w rest hs
    refine ⟨w, rest, _, hs, hpf, rfl, rfl, rfl, rfl, rfl, hw, hall,
      ?_, ?_⟩
    · intro s rest2 hr
      subst hr
      exact ⟨rfl, sortByConfDesc_second_max rs w s rest2 hs⟩
    · intro hr; subst hr; rfl

/-- C2 witness: a debate started at time 0 with two collected
responses; a third response arriving at time 31 > DEBATE_TIMEOUT forces
final arbitration even though three responses are present. -/
theorem C2_timeout_witness :
    lookupDebate tableT "d" = some debT ∧
    cfgDefault.DEBATE_TIMEOUT < (31 : Rat) - debT.start_time ∧
    (roundResponses (roundsAdd debT.rounds 0 respB) 0 ≠ [] ∧
     claude_process_response cfgDefault simZero tableT "d" 0 respB 31 =
       (finalize_table cfgDefault
          (ingest_response tableT "d" 0 respB 31) "d",
        ClaudeAction.finalArb (perform_final_arbitration "d" 0
          (roundResponses (roundsAdd debT.rounds 0 respB) 0)))) :=
  ⟨rfl, by norm_num [cfgDefault, debT],
    C2_timeout_and_final_arbitration.1 cfgDefault simZero tableT "d" 0
      respB 31 debT rfl (by norm_num [cfgDefault, debT])⟩

/-! Helper lemmas for the table-bound and eviction claims. -/

/-- A single-round map answers its round. -/
theorem roundResponses_single (rnd : Nat) (l : List Response) :
    roundResponses [(rnd, l)] rnd = l := by
  simp [roundResponses, List.find?]

/-- A response for an untracked debate id, with the timeout not yet
expired at creation time, appends a fresh debate entry and takes no
arbitration action (the fresh round holds a single response). -/
theorem claude_ingest_fresh (cfg : Config) (sim : String → String → Rat)
    (table : List (String × Debate)) (did : String) (rnd : Nat)
    (r : Response) (now : Rat)
    (hfresh : lookupDebate table did = none)
    (hto : ¬ cfg.DEBATE_TIMEOUT < now - now) :
    claude_process_response cfg sim table did rnd r now =
      (table ++ [(did, { start_time := now, status := "active",
                         rounds := [(rnd, [r])] })],
       ClaudeAction.waitMore) := by
  have hing : ingest_response table did rnd r now =
      table ++ [(did, { start_time := now, status := "active",
                        rounds := [(rnd, [r])] })] := by
    unfold ingest_response
    rw [hfresh]
  have hfnone : table.find? (fun p => p.1 == did) = none := by
    unfold lookupDebate at hfresh
    cases hfind : table.find? (fun p => p.1 == did) with
    | none => rfl
    | some p => rw [hfind] at hfresh; simp at hfresh
  have hlook : lookupDebate (table ++ [(did,
      { start_time := now, status := "active",
        rounds := [(rnd, [r])] })]) did =
      some { start_time := now, status := "active",
             rounds := [(rnd, [r])] } := by
    unfold lookupDebate
    rw [List.find?_append, hfnone]
    simp [List.find?]
  simp only [claude_process_response, hing, hlook, roundResponses_single]
  rw [if_neg (fun hc => hto hc.1),
    if_neg (show ¬ 3 ≤ List.length [r] from by simp)]

/-- C6 counterexample: ingestion never evicts, so the table exceeds
`MAX_HISTORY_SIZE`: with the cap configured to 1, two arbiter
operations ingesting responses for two distinct debates (neither of
which concludes) leave 2 tracked debates. -/
theorem C6_table_bound_counterexample :
    ¬ ((claude_process_response cfgSmall simZero
          (claude_process_response cfgSmall simZero [] "x" 0 respA 0).1
          "y" 0 respA 0).1.length ≤ cfgSmall.MAX_HISTORY_SIZE) := by
  have h0 : ¬ cfgSmall.DEBATE_TIMEOUT < (0 : Rat) - 0 := by
    norm_num [cfgSmall, cfgDefault]
  have h1 : (claude_process_response cfgSmall simZero [] "x" 0
      respA 0).1 =
      [("x", { start_time := 0, status := "active",
               rounds := [(0, [respA])] })] := by
    rw [claude_ingest_fresh cfgSmall simZero [] "x" 0 respA 0 rfl h0]
    rfl
  rw [h1, claude_ingest_fresh cfgSmall simZero
    [("x", { start_time := 0, status := "active",
             rounds := [(0, [respA])] })] "y" 0 respA 0 rfl h0]
  simp [cfgSmall, cfgDefault]

/-- Specification of the oldest-completed fold: a returned candidate is
either the seed or a completed entry of the list with the recorded
start time; it is no younger than any completed entry of the list, and
no younger than the seed. -/
theorem findOldestAux_spec (l : List (String × Debate)) :
    ∀ (acc : Option (String × Rat)) (oid : String) (t : Rat),
      findOldestAux acc l = some (oid, t) →
      (acc = some (oid, t) ∨
        ∃ d, (oid, d) ∈ l ∧ d.status = "completed" ∧ d.start_time = t) ∧
      (∀ p ∈ l, p.2.status = "completed" → t ≤ p.2.start_time) ∧
      (∀ a ta, acc = some (a, ta) → t ≤ ta) := by
  induction l with
  | nil =>
      intro acc oid t h
      simp only [findOldestAux] at h
      refine ⟨Or.inl h, by simp, ?_⟩
      intro a ta ha
      rw [h] at ha
      simp only [Option.some.injEq, Prod.mk.injEq] at ha
      exact ha.2.le
  | cons hd tl ih =>
      intro acc oid t h
      obtain ⟨id, d⟩ := hd
      simp only [findOldestAux] at h
      by_cases hst : d.status = "completed"
      · rw [if_pos hst] at h
        cases acc with
        | none =>
            obtain ⟨H1, H2, H3⟩ := ih (some (id, d.start_time)) oid t h
            refine ⟨?_, ?_, ?_⟩
            · rcases H1 with heq | ⟨d2, hm2, hc2, ht2⟩
              · simp only [Option.some.injEq, Prod.mk.injEq] at heq
                exact Or.inr ⟨d, by rw [← heq.1]; exact
                  List.mem_cons_self _ _, hst, heq.2⟩
              · exact Or.inr ⟨d2, List.mem_cons_of_mem _ hm2, hc2, ht2⟩
            · intro p hp hpc
              rcases List.mem_cons.mp hp with rfl | hp2
              · exact H3 id d.start_time rfl
              · exact H2 p hp2 hpc
            · intro a ta ha; simp at ha
        | some pr =>
            obtain ⟨a0, t0⟩ := pr
            have h2 : findOldestAux
                (if d.start_time < t0 then some (id, d.start_time)
                 else some (a0, t0)) tl = some (oid, t) := h
            by_cases hlt : d.start_time < t0
            · rw [if_pos hlt] at h2
              obtain ⟨H1, H2, H3⟩ := ih (some (id, d.start_time)) oid t h2
              refine ⟨?_, ?_, ?_⟩
              · rcases H1 with heq | ⟨d2, hm2, hc2, ht2⟩
                · simp only [Option.some.injEq, Prod.mk.injEq] at heq
                  exact Or.inr ⟨d, by rw [← heq.1]; exact
                    List.mem_cons_self _ _, hst, heq.2⟩
                · exact Or.inr ⟨d2, List.mem_cons_of_mem _ hm2, hc2, ht2⟩
              · intro p hp hpc
                rcases List.mem_cons.mp hp with rfl | hp2
                · exact H3 id d.start_time rfl
                · exact H2 p hp2 hpc
              · intro a ta ha
                simp only [Option.some.injEq, Prod.mk.injEq] at ha
                exact le_trans (H3 id d.start_time rfl)
                  (le_trans hlt.le ha.2.le)
            · rw [if_neg hlt] at h2
              obtain ⟨H1, H2, H3⟩ := ih (some (a0, t0)) oid t h2
              refine ⟨?_, ?_, ?_⟩
              · rcases H1 with heq | ⟨d2, hm2, hc2, ht2⟩
                · exact Or.inl heq
                · exact Or.inr ⟨d2, List.mem_cons_of_mem _ hm2, hc2, ht2⟩
              · intro p hp hpc
                rcases List.mem_cons.mp hp with rfl | hp2
                · exact le_trans (H3 a0 t0 rfl) (le_of_not_lt hlt)
                · exact H2 p hp2 hpc
              · intro a ta ha
                simp only [Option.some.injEq, Prod.mk.injEq] at ha
                exact le_trans (H3 a0 t0 rfl) ha.2.le
      · rw [if_neg hst] at h
        obtain ⟨H1, H2, H3⟩ := ih acc oid t h
        refine ⟨?_, ?_, H3⟩
        · rcases H1 with heq | ⟨d2, hm2, hc2, ht2⟩
          · exact Or.inl heq
          · exact Or.inr ⟨d2, List.mem_cons_of_mem _ hm2, hc2, ht2⟩
        · intro p hp hpc
          rcases List.mem_cons.mp hp with rfl | hp2
          · exact absurd hpc hst
          · exact H2 p hp2 hpc

/-- In a table with pairwise distinct keys, two entries sharing a key
are equal. -/
theorem mem_eq_of_nodup_keys {l : List (String × Debate)}
    (h : (l.map Prod.fst).Nodup) {k : String} {x y : Debate}
    (hx : (k, x) ∈ l) (hy : (k, y) ∈ l) : x = y := by
  induction l with
  | nil => simp at hx
  | cons hd tl ih =>
      obtain ⟨k0, d0⟩ := hd
      simp only [List.map_cons, List.nodup_cons] at h
      rcases List.mem_cons.mp hx with hxh | hx2
      · rcases List.mem_cons.mp hy with hyh | hy2
        · rw [Prod.mk.injEq] at hxh hyh
          rw [hxh.2, hyh.2]
        · exfalso
          rw [Prod.mk.injEq] at hxh
          exact h.1 (by rw [← hxh.1]
                        exact List.mem_map.mpr ⟨(k, y), hy2, rfl⟩)
      · rcases List.mem_cons.mp hy with hyh | hy2
        · exfalso
          rw [Prod.mk.injEq] at hyh
          exact h.1 (by rw [← hyh.1]
                        exact List.mem_map.mpr ⟨(k, x), hx2, rfl⟩)
        · exact ih h.2 hx2 hy2

/-- C6 amended: whenever the overflow cleanup evicts a debate, the
evicted one is a completed debate with the oldest start time among
completed debates, and a debate with status `active` is never evicted;
the table itself is not bounded by `MAX_HISTORY_SIZE`
(see the counterexample theorem). -/
theorem C6_eviction_policy (cfg : Config)
    (table : List (String × Debate))
    (hnd : (table.map Prod.fst).Nodup) :
    (∀ id d, (id, d) ∈ table → d.status = "active" →
      (id, d) ∈ evict cfg table) ∧
    (∀ oid t, findOldestCompleted table = some (oid, t) →
      ∃ d, (oid, d) ∈ table ∧ d.status = "completed" ∧ d.start_time = t ∧
        ∀ p ∈ table, p.2.status = "completed" → t ≤ p.2.start_time) := by
  have hmain : ∀ oid t, findOldestCompleted table = some (oid, t) →
      ∃ d, (oid, d) ∈ table ∧ d.status = "completed" ∧ d.start_time = t ∧
        ∀ p ∈ table, p.2.status = "completed" → t ≤ p.2.start_time := by
    intro oid t h
    obtain ⟨H1, H2, _⟩ := findOldestAux_spec table none oid t h
    rcases H1 with habs | ⟨d, hm, hc, ht⟩
    · simp at habs
    · exact ⟨d, hm, hc, ht, H2⟩
  refine ⟨?_, hmain⟩
  intro id d hm hact
  unfold evict
  by_cases hov : cfg.MAX_HISTORY_SIZE < table.length
  · rw [if_pos hov]
    cases hoc : findOldestCompleted table with
    | none => exact hm
    | some pr =>
        obtain ⟨oid, t⟩ := pr
        show (id, d) ∈
          (if oid = "" then table
           else table.filter (fun p => p.1 != oid))
        by_cases hoe : oid = ""
        · rw [if_pos hoe]; exact hm
        · rw [if_neg hoe]
          apply List.mem_filter.mpr
          refine ⟨hm, ?_⟩
          obtain ⟨dC, hmC, hcC, _, _⟩ := hmain oid t hoc
          by_cases hid : id = oid
          · exfalso
            subst hid
            have hde := mem_eq_of_nodup_keys hnd hm hmC
            rw [← hde, hact] at hcC
            exact absurd hcC (by decide)
          · simpa using hid
  · rw [if_neg hov]; exact hm

/-- C6 amended witness: a table with one active and two completed
debates; the oldest completed one (`"c"`, started at 2) is the eviction
candidate, and it is completed and oldest among completed. -/
theorem C6_eviction_policy_witness :
    (tableW.map Prod.fst).Nodup ∧
    findOldestCompleted tableW = some ("c", 2) ∧
    ∃ d, ("c", d) ∈ tableW ∧ d.status = "completed" ∧ d.start_time = 2 ∧
      ∀ p ∈ tableW, p.2.status = "completed" → (2 : Rat) ≤ p.2.start_time :=
  ⟨by decide,
    by
      norm_num [findOldestCompleted, findOldestAux, tableW]
      rw [if_neg (show ¬ ("active" = "completed") from by decide)]
      norm_num,
    (C6_eviction_policy cfgDefault tableW (by decide)).2 "c" 2
      (by
        norm_num [findOldestCompleted, findOldestAux, tableW]
        rw [if_neg (show ¬ ("active" = "completed") from by decide)]
        norm_num)⟩

/-! Helper lemma for the response cache. -/

/-- A key stored with `cache_set` answers the stored value before its
expiry and nothing afterwards. -/
theorem cache_get_set (store : List CacheEntry) (k v : String)
    (exp now2 : Nat) :
    cache_get (cache_set store k v exp) now2 k =
      if now2 < exp then some v else none := by
  unfold cache_get cache_set
  by_cases hlt : now2 < exp
  · rw [if_pos hlt, List.find?_cons_of_pos]
    · rfl
    · simp [hlt]
  · rw [if_neg hlt, List.find?_cons_of_neg]
    · have hnone : (store.filter (fun e => e.key != k)).find?
          (fun e => e.key == k && decide (now2 < e.expireAt)) = none := by
        apply List.find?_eq_none.mpr
        intro e he hp
        have hk := (List.mem_filter.mp he).2
        simp at hp hk
        exact hk hp.1
      rw [hnone]; rfl
    · simp [hlt]

/-- C7 counterexample: with the default configuration
(`CACHE_TTL = 300`), a successful GPT call at time 0 stores its cached
response with expiry 3600, not `0 + CACHE_TTL`. -/
theorem C7_gpt_ttl_counterexample :
    ∃ e, (call_gpt_api cfgDefault fp0 [] 0 "q" (some "r")).store = [e] ∧
      e.expireAt ≠ 0 + cfgDefault.CACHE_TTL :=
  ⟨_, rfl, by decide⟩

/-- C7 amended: the cache key is a deterministic function of the
canonical request serialization; a successful call stores its response
and a lookup before the stored expiry returns the cached response with
no second model call; the Claude agent stores with TTL exactly
`CACHE_TTL`, while the GPT agent stores with the fixed TTL 3600
regardless of `CACHE_TTL`. -/
theorem C7_cache_behavior (cfg : Config) (fp : String → Nat)
    (store : List CacheEntry) (now now2 : Nat) (s r : String)
    (hc : cfg.CACHING_ENABLED = true)
    (hmissC : cache_get store now (cache_key "Claude" fp s) = none)
    (hmissG : cache_get store now (cache_key "GPT-4o" fp s) = none)
    (hfresh : now2 < now + cfg.CACHE_TTL) :
    (∀ s2, s2 = s → cache_key "Claude" fp s2 = cache_key "Claude" fp s) ∧
    (call_claude_api cfg fp store now s (some r)).result = some r ∧
    (call_claude_api cfg fp store now s (some r)).modelCalls = 1 ∧
    (call_claude_api cfg fp store now s (some r)).store =
      cache_set store (cache_key "Claude" fp s) r (now + cfg.CACHE_TTL) ∧
    (∀ api2,
      (call_claude_api cfg fp
        (call_claude_api cfg fp store now s (some r)).store now2 s
        api2).result = some r ∧
      (call_claude_api cfg fp
        (call_claude_api cfg fp store now s (some r)).store now2 s
        api2).modelCalls = 0) ∧
    (call_gpt_api cfg fp store now s (some r)).store =
      cache_set store (cache_key "GPT-4o" fp s) r (now + 3600) := by
  have hcl : call_claude_api cfg fp store now s (some r) =
      { result := some r,
        store := cache_set store (cache_key "Claude" fp s) r
          (now + cfg.CACHE_TTL),
        modelCalls := 1 } := by
    simp only [call_claude_api, hc, hmissC, if_true]
  have hget : cache_get (cache_set store (cache_key "Claude" fp s) r
      (now + cfg.CACHE_TTL)) now2 (cache_key "Claude" fp s) = some r := by
    rw [cache_get_set, if_pos hfresh]
  have hgpt : call_gpt_api cfg fp store now s (some r) =
      { result := some r,
        store := cache_set store (cache_key "GPT-4o" fp s) r (now + 3600),
        modelCalls := 1 } := by
    simp only [call_gpt_api, hc, hmissG, if_true]
  refine ⟨fun s2 h => by rw [h], ?_, ?_, ?_, ?_, ?_⟩
  · rw [hcl]
  · rw [hcl]
  · rw [hcl]
  · intro api2
    rw [hcl]
    constructor
    · simp only [call_claude_api, hc, hget, if_true]
    · simp only [call_claude_api, hc, hget, if_true]
  · rw [hgpt]

/-- C7 amended witness: a first Claude call at time 0 on an empty cache
stores the response; a second lookup at time 10 (within the TTL)
answers from the cache with no model call. -/
theorem C7_cache_behavior_witness :
    cfgDefault.CACHING_ENABLED = true ∧
    cache_get [] 0 (cache_key "Claude" fp0 "q") = none ∧
    cache_get [] 0 (cache_key "GPT-4o" fp0 "q") = none ∧
    (10 : Nat) < 0 + cfgDefault.CACHE_TTL ∧
    (call_claude_api cfgDefault fp0
        (call_claude_api cfgDefault fp0 [] 0 "q" (some "r")).store 10 "q"
        none).result = some "r" ∧
    (call_claude_api cfgDefault fp0
        (call_claude_api cfgDefault fp0 [] 0 "q" (some "r")).store 10 "q"
        none).modelCalls = 0 :=
  ⟨rfl, rfl, rfl, by decide,
    ((C7_cache_behavior cfgDefault fp0 [] 0 10 "q" "r" rfl rfl rfl
      (by decide)).2.2.2.2.1 none).1,
    ((C7_cache_behavior cfgDefault fp0 [] 0 10 "q" "r" rfl rfl rfl
      (by decide)).2.2.2.2.1 none).2⟩
